import Mathlib

/-!
Verification of the coinbase polling ingestion service.

The definitions below are a shallow embedding of the Python sources:
  src/models/candle.py, src/models/product.py,
  src/services/coinbase_client.py, src/main.py.
Times are modelled in integral units (milliseconds for the rate limiter,
epoch seconds for candle requests); machine floats of `time.time()` are
modelled as exact numbers, which is a sound idealisation for the ordering
and windowing facts proved here.  Raw API records (Python dicts) are
modelled as association lists of string pairs.
-/

namespace Coinbase

/-- Association-list model of a Python dict with string keys and values. -/
abbrev RawDict := List (String × String)

/-- Whether the string `pat` occurs as a contiguous substring of `s`.
Models the Python expression `pat in s`. -/
def strContains (s pat : String) : Bool :=
  let sl := s.toList
  let pl := pat.toList
  (List.range (sl.length + 1)).any (fun i => pl.isPrefixOf (sl.drop i))

/-- Numeric value of a list of digit characters (no validation). -/
def digitsVal (l : List Char) : Nat :=
  l.foldl (fun a c => a * 10 + (c.toNat - 48)) 0

/-- After a first digit, CPython's decimal-literal tail: digits, with a
single underscore allowed only between two digits.  Returns the digits
with underscores removed, or `none` on a malformed group. -/
def groupedTail : List Char → Option (List Char)
  | [] => some []
  | '_' :: rest =>
    match rest with
    | [] => none
    | c :: rest' => if c.isDigit then (groupedTail rest').map (fun ds => c :: ds) else none
  | c :: rest => if c.isDigit then (groupedTail rest).map (fun ds => c :: ds) else none

/-- CPython's base-10 digit grammar for `int(...)`: one digit, then
digits with single underscores between digits (`"1_0"` is 10; `"_1"`,
`"1_"` and `"1__0"` are rejected). -/
def groupedDigits : List Char → Option (List Char)
  | [] => none
  | c :: rest => if c.isDigit then (groupedTail rest).map (fun ds => c :: ds) else none

/-- Value of a CPython digit group. -/
def groupedNat (l : List Char) : Option Nat := (groupedDigits l).map digitsVal

/-- ASCII whitespace stripped by CPython `int(...)` (the characters of
`str.isspace` below code point 128). -/
def isPySpace (c : Char) : Bool :=
  c = ' ' || c = '\t' || c = '\n' || c = '\r' || c = '\x0b' || c = '\x0c' ||
  c = '\x1c' || c = '\x1d' || c = '\x1e' || c = '\x1f'

/-- Strip surrounding whitespace from a character list. -/
def pyStrip (l : List Char) : List Char :=
  ((l.dropWhile isPySpace).reverse.dropWhile isPySpace).reverse

/-- Model of CPython `int(s)` on a string of ASCII characters: optional
surrounding whitespace, an optional sign, then decimal digits with single
underscores allowed between digits; `none` when the parse fails (the
Python call raises `ValueError`).  CPython additionally accepts non-ASCII
Unicode decimal digits and Unicode whitespace; theorems whose truth
depends on the parse are therefore scoped to ASCII start strings. -/
def pyInt (s : String) : Option Int :=
  match pyStrip s.toList with
  | '-' :: rest => (groupedNat rest).map (fun n => -(n : Int))
  | '+' :: rest => (groupedNat rest).map (fun n => (n : Int))
  | l => (groupedNat l).map (fun n => (n : Int))

/-- Whether a string is all-ASCII, the fragment on which `pyInt` and
`isPySpace` agree with CPython exactly. -/
def asciiStr (s : String) : Bool := s.data.all (fun c => c.toNat < 128)

/-- Equality of executor results is decidable. -/
instance : DecidableEq (Except String Nat) := fun a b =>
  match a, b with
  | .ok x, .ok y =>
    if h : x = y then isTrue (by rw [h]) else isFalse (fun hc => h (by cases hc; rfl))
  | .ok _, .error _ => isFalse (fun hc => by cases hc)
  | .error _, .ok _ => isFalse (fun hc => by cases hc)
  | .error x, .error y =>
    if h : x = y then isTrue (by rw [h]) else isFalse (fun hc => h (by cases hc; rfl))

/-- The `Candle` dataclass of src/models/candle.py: six string fields,
kept verbatim from the API (decimal-precision strings). -/
structure Candle where
  start : String
  high : String
  low : String
  «open» : String
  close : String
  volume : String
deriving DecidableEq, Repr

/-- The six field names of the `Candle` dataclass, in declaration order. -/
def candleKeys : List String := ["start", "high", "low", "open", "close", "volume"]

/-- Model of `Candle.from_response` on a dict-shaped record: `cls(**d)`
succeeds exactly when the keyword set matches the six dataclass fields
(a missing key or an extra key raises `TypeError`, caught and turned into
`None`). -/
def Candle.fromResponse (d : RawDict) : Option Candle :=
  if d.length = 6 ∧ ∀ k ∈ candleKeys, (d.lookup k).isSome then
    some { start := (d.lookup "start").getD ""
         , high := (d.lookup "high").getD ""
         , low := (d.lookup "low").getD ""
         , «open» := (d.lookup "open").getD ""
         , close := (d.lookup "close").getD ""
         , volume := (d.lookup "volume").getD "" }
  else none

/-- Model of `Candle.to_dict`. -/
def Candle.toDict (c : Candle) : RawDict :=
  [("start", c.start), ("high", c.high), ("low", c.low),
   ("open", c.«open»), ("close", c.close), ("volume", c.volume)]

/-- Sort key used by `CoinbaseClient.get_candles`: the `datetime` property is
`datetime.fromtimestamp(int(self.start))`, a strictly monotone image of
`int(self.start)`, so the integer itself is the key.  Total function with a
default; `get_candles` only sorts when every start's key computes. -/
def startKeyD (c : Candle) : Int := (pyInt c.start).getD 0

/-- Validity of `datetime.fromtimestamp(n)`: the timestamp must land in
year 1..9999, else the call raises (`OverflowError`/`OSError`/
`ValueError`).  Modelled as the UTC envelope
`[-62135596800, 253402300799]` (the timestamps of 0001-01-01T00:00:00 and
9999-12-31T23:59:59 UTC); the true edges shift by the host's UTC offset,
under a day, and every concrete input in this development lies far from
the edges. -/
def fromtimestampOk (n : Int) : Bool :=
  (-62135596800 ≤ n) && (n ≤ 253402300799)

/-- Whether computing `x.datetime` for a candle succeeds: `int(start)`
must parse and `datetime.fromtimestamp` must accept it. -/
def sortKeyOk (c : Candle) : Bool :=
  match pyInt c.start with
  | some n => fromtimestampOk n
  | none => false

/-- Comparison used when sorting candles: ascending by interval start. -/
def candLe (a b : Candle) : Prop := startKeyD a ≤ startKeyD b

instance : DecidableRel candLe := fun a b =>
  inferInstanceAs (Decidable (startKeyD a ≤ startKeyD b))

instance : IsTotal Candle candLe := ⟨fun a b => Int.le_total (startKeyD a) (startKeyD b)⟩

instance : IsTrans Candle candLe := ⟨fun _ _ _ h h' => le_trans h h'⟩

/-- Python `l[-3:]`: the final three elements (the whole list when shorter). -/
def takeLast3 {α : Type} (l : List α) : List α := l.drop (l.length - 3)

/-- Outcome of the raw candle fetch as seen by `CoinbaseClient.get_candles`:
the underlying request raised, the response object lacked a `candles`
attribute, or it carried a list of raw records. -/
inductive CandleResp where
  | err
  | noCandles
  | candles (raws : List RawDict)
deriving DecidableEq

/-- Model of `CoinbaseClient.get_candles` downstream of the request: parse
each record via `Candle.from_response` dropping `None`s, sort ascending by
`x.datetime` (the integer value of `start`), and return the last three.
`sorted` computes the key of every element, so if any parsed candle's
`start` is not an integer, or is an integer `datetime.fromtimestamp`
rejects as out of range, the key raises inside the surrounding `try` and
the whole call returns `[]`; request failures and a malformed response
shape also yield `[]`. -/
def get_candles (resp : CandleResp) : List Candle :=
  match resp with
  | .err => []
  | .noCandles => []
  | .candles raws =>
    let cs := raws.filterMap Candle.fromResponse
    if cs.all sortKeyOk then
      takeLast3 (List.insertionSort candLe cs)
    else []

/-- The `Product` dataclass of src/models/product.py. -/
structure Product where
  product_id : String
  base_name : String
  quote_name : String
  status : String
  price : Option String
  volume_24h : Option String
deriving DecidableEq, Repr

/-- Model of `Product.from_response` on a dict-shaped record: the four
required keys are read with `d[k]` (a missing one raises `KeyError`, caught
and turned into `None`); `price` and `volume_24h` are read with `d.get`. -/
def Product.fromResponse (d : RawDict) : Option Product :=
  match d.lookup "product_id", d.lookup "base_name",
        d.lookup "quote_name", d.lookup "status" with
  | some pid, some b, some q, some s =>
    some { product_id := pid, base_name := b, quote_name := q, status := s
         , price := d.lookup "price", volume_24h := d.lookup "volume_24h" }
  | _, _, _, _ => none

/-- Outcome of the raw catalog fetch as seen by `CoinbaseClient.get_products`. -/
inductive ProductsResp where
  | err
  | noProducts
  | products (raws : List RawDict)
deriving DecidableEq

/-- Model of `CoinbaseClient.get_products`: on a request failure or a
response without a `products` attribute, `[]`; otherwise keep every record
that `Product.from_response` accepts and whose status is `"online"`. -/
def get_products (resp : ProductsResp) : List Product :=
  match resp with
  | .err => []
  | .noProducts => []
  | .products raws =>
    (raws.filterMap Product.fromResponse).filter (fun p => p.status == "online")

/-- The granularity translation table of `CoinbaseClient.get_candles`. -/
def granularity_map : RawDict :=
  [("ONE_MINUTE", "ONE_MINUTE"), ("FIVE_MINUTE", "FIVE_MINUTE"),
   ("FIFTEEN_MINUTE", "FIFTEEN_MINUTE"), ("THIRTY_MINUTE", "THIRTY_MINUTE"),
   ("ONE_HOUR", "ONE_HOUR"), ("TWO_HOUR", "TWO_HOUR"),
   ("SIX_HOUR", "SIX_HOUR"), ("ONE_DAY", "ONE_DAY")]

/-- ASCII uppercase of one character, as Python `str.upper` maps it. -/
def pyUpperChar (c : Char) : Char :=
  if 'a' ≤ c ∧ c ≤ 'z' then Char.ofNat (c.toNat - 32) else c

/-- Model of Python `str.upper()` on the ASCII strings in play. -/
def pyUpper (s : String) : String := ⟨s.data.map pyUpperChar⟩

/-- `granularity_map.get(granularity.upper(), "FIVE_MINUTE")`. -/
def apiGranularity (g : String) : String :=
  (granularity_map.lookup (pyUpper g)).getD "FIVE_MINUTE"

/-- The request parameters `CoinbaseClient.get_candles` sends for a fetch. -/
structure CandleRequest where
  product_id : String
  start_timestamp : Nat
  end_timestamp : Nat
  granularity : String
deriving DecidableEq

/-- Request built by `CryptoDataCollector.get_candles` (src/main.py) through
`CoinbaseClient.get_candles`: `end = now (UTC)`, `start = end - 15 minutes`,
converted to integral epoch seconds, with granularity `"FIVE_MINUTE"`
fed through the translation table.  `now` is in epoch seconds. -/
def collector_request (now : Nat) (pid : String) : CandleRequest :=
  { product_id := pid
  , start_timestamp := now - 900
  , end_timestamp := now
  , granularity := apiGranularity "FIVE_MINUTE" }

/-! Orchestrator: `CryptoDataCollector` of src/main.py.  Per-product
behaviour of the outside world (the exchange response for that product and
whether the sink write raises) is passed in explicitly. -/

/-- Environment faced by one per-product task: the raw candle fetch outcome
and whether `write_candles` raises. -/
structure ProcBehavior where
  fetch : CandleResp
  writeFails : Bool
deriving DecidableEq

/-- The dict returned by `CryptoDataCollector.process_product`. -/
structure Outcome where
  product_id : String
  candles : List RawDict
  timestamp : String
deriving DecidableEq

/-- Observable calls made to the sink during one per-product task. -/
inductive SinkEvent where
  | wrote (pid : String) (n : Nat)
  | writeFailed (pid : String)
deriving DecidableEq

/-- Model of `CryptoDataCollector.get_candles`: the `try` around the client
call catches every exception into `[]`, and the client model itself already
degrades every failure to `[]`. -/
def collector_get_candles (resp : CandleResp) : List Candle := get_candles resp

/-- Model of `CryptoDataCollector.process_product`: fetch candles, write to
the sink when the list is non-empty (a raising write is caught and only
logged), and return the result dict unconditionally.  The function is total:
no exception escapes a per-product task. -/
def process_product (iso : String) (beh : ProcBehavior) (p : Product) :
    Outcome × List SinkEvent :=
  let candles := collector_get_candles beh.fetch
  let sink :=
    if candles.isEmpty then []
    else if beh.writeFails then [SinkEvent.writeFailed p.product_id]
    else [SinkEvent.wrote p.product_id candles.length]
  ({ product_id := p.product_id
   , candles := candles.map Candle.toDict
   , timestamp := iso }, sink)

/-- Model of `CryptoDataCollector.collect_data`: list the products; when the
list is empty return `[]` at once; otherwise gather one `process_product`
result per product, in submission order (`asyncio.gather` keeps input
order).  The `Except` wrapper records that the cycle returns normally. -/
def collect_data (iso : String) (resp : ProductsResp)
    (beh : String → ProcBehavior) : Except String (List Outcome) :=
  let products := get_products resp
  if products.isEmpty then .ok []
  else .ok (products.map (fun p => (process_product iso (beh p.product_id) p).1))

/-! Request executor: the retry/backoff and permit discipline of
`CoinbaseClient._rate_limited_request`, run by a single task whose
outbound call produces a scripted list of outcomes (one per attempt). -/

/-- One scripted result of invoking the wrapped callable. -/
inductive CallOutcome where
  | ok (v : Nat)
  | err (msg : String)
deriving DecidableEq

/-- The throttling test of the `except` clause:
`"Too many errors" in str(e) or "429" in str(e)`. -/
def isThrottleMsg (m : String) : Bool :=
  strContains m "Too many errors" || strContains m "429"

/-- An outcome on which the recursion stops: a success, or an error the
throttling test rejects. -/
def isTerminalOutcome : CallOutcome → Bool
  | .ok _ => true
  | .err m => !(isThrottleMsg m)

/-- The value `_rate_limited_request` produces from a terminal outcome:
the result is returned, a non-throttling error propagates unchanged. -/
def terminal : CallOutcome → Except String Nat
  | .ok v => .ok v
  | .err m => .error m

/-- Observable events of one `_rate_limited_request` execution. -/
inductive Ev where
  | acquire
  | invoke
  | sleepEv (ms : Nat)
  | release
deriving DecidableEq

/-- Executor state: the current clock (ms) and the stored
`self.*_request_times` list. -/
structure ExecSt where
  now : Nat
  request_times : List Nat
deriving DecidableEq

/-- The purge at the head of the semaphore block:
`[t for t in request_times if current_time - t < 1.0]`. -/
def purgeTimes (st : ExecSt) : List Nat :=
  st.request_times.filter (fun t => st.now - t < 1000)

/-- The rate-limit wait: when the purged window holds `maxRps` timestamps,
`1.0 - (current_time - request_times[0])`, else nothing. -/
def rateWait (maxRps : Nat) (st : ExecSt) : Nat :=
  if maxRps ≤ (purgeTimes st).length
  then 1000 - (st.now - (purgeTimes st).headD 0) else 0

/-- The sleep event the rate-limit wait emits, when positive. -/
def waitEvsOf (maxRps : Nat) (st : ExecSt) : List Ev :=
  if 0 < rateWait maxRps st then [Ev.sleepEv (rateWait maxRps st)] else []

/-- The clock after the rate-limit wait. -/
def afterWait (maxRps : Nat) (st : ExecSt) : Nat :=
  st.now + rateWait maxRps st

/-- Model of `_rate_limited_request` for one top-level call: acquire the
semaphore permit, purge the window to entries under a second old, wait out a
full window (based on the oldest entry), invoke the callable; on success
append the timestamp, write the purged list back and release; on a
throttling failure sleep two seconds and retry the identical call while
still inside the `async with` block (the permit is released only when the
recursion returns, which is exactly what the event order records); on any
other failure the exception leaves the block, releasing the permit.  Fuel
bounds the a-priori unbounded recursion; `none` means the script or fuel
ran out.  The callable itself runs instantaneously. -/
def rateLimitedRequest (maxRps : Nat) :
    Nat → List CallOutcome → ExecSt →
    List Ev × Option (Except String Nat) × ExecSt
  | 0, _, st => ([], none, st)
  | _ + 1, [], st => ([Ev.acquire], none, st)
  | fuel + 1, o :: rest, st =>
    match o with
    | .ok v =>
      (Ev.acquire :: waitEvsOf maxRps st ++ [Ev.invoke, Ev.release],
       some (.ok v),
       { now := afterWait maxRps st
       , request_times := purgeTimes st ++ [afterWait maxRps st] })
    | .err m =>
      if isThrottleMsg m then
        let inner := rateLimitedRequest maxRps fuel rest
          { now := afterWait maxRps st + 2000, request_times := st.request_times }
        (Ev.acquire :: waitEvsOf maxRps st ++ [Ev.invoke, Ev.sleepEv 2000] ++
           inner.1 ++ [Ev.release],
         inner.2.1, inner.2.2)
      else
        (Ev.acquire :: waitEvsOf maxRps st ++ [Ev.invoke, Ev.release],
         some (.error m),
         { now := afterWait maxRps st, request_times := st.request_times })

/-- Number of occurrences of an event in a trace. -/
def countEv (e : Ev) (l : List Ev) : Nat := (l.filter (fun x => x = e)).length

/-! Rate limiter under concurrent admission, for the sliding-window
invariant.  Cooperative (asyncio) concurrency: a task runs atomically
between awaits; the only await inside the semaphore block before the
callable runs is the rate-limit sleep.  A task entering
`_rate_limited_request` therefore either runs purge-check-call-append-
write-back in one atomic step, or is suspended at the sleep holding its
purged local copy of the timestamp list, resuming at its wake time. -/

/-- A task suspended in the rate-limit sleep: its stale local purged copy
of `request_times` and its wake-up instant. -/
structure TaskSt where
  localTimes : List Nat
  wake : Nat
deriving DecidableEq

/-- Global state of one rate limiter (`Q = maxRps = semaphore size`) under
concurrent admission.  `invocations` records the instants the wrapped
callable was invoked — the admitted calls of the claim. -/
structure Sys where
  now : Nat
  stored : List Nat
  inflight : Nat
  sleeping : List TaskSt
  invocations : List Nat
deriving DecidableEq

/-- Scheduler actions: a fresh task enters `_rate_limited_request` at time
`t`, or the `i`-th suspended task wakes from its rate-limit sleep. -/
inductive Act where
  | enter (t : Nat)
  | wakeUp (i : Nat)
deriving DecidableEq

/-- One atomic step of the limiter.  `enter t`: the task acquires a
semaphore slot (requires fewer than `Q` in flight), purges the stored list
at time `t`, and either (window full, positive wait) suspends holding its
local copy, or (otherwise) invokes the callable at `t`, appends `t` and
writes its local copy back.  `wakeUp i`: the suspended task resumes at its
wake time, invokes the callable, appends and writes back its stale local
copy — exactly the code's post-sleep path, which re-checks nothing.
`none` marks an inapplicable action (time moving backwards, a full
semaphore, or no such sleeper). -/
def step (Q : Nat) (s : Sys) : Act → Option Sys
  | .enter t =>
    if t < s.now then none
    else if Q ≤ s.inflight then none
    else
      let times := s.stored.filter (fun x => t - x < 1000)
      let wait := if Q ≤ times.length then 1000 - (t - times.headD 0) else 0
      if 0 < wait then
        some { now := t, stored := s.stored, inflight := s.inflight + 1
             , sleeping := s.sleeping ++ [⟨times, t + wait⟩]
             , invocations := s.invocations }
      else
        some { now := t, stored := times ++ [t], inflight := s.inflight
             , sleeping := s.sleeping, invocations := s.invocations ++ [t] }
  | .wakeUp i =>
    match s.sleeping.get? i with
    | none => none
    | some ts =>
      if ts.wake < s.now then none
      else
        some { now := ts.wake
             , stored := ts.localTimes ++ [ts.wake]
             , inflight := s.inflight - 1
             , sleeping := s.sleeping.eraseIdx i
             , invocations := s.invocations ++ [ts.wake] }

/-- Run a script of actions from a state; `none` if any action is
inapplicable. -/
def runScript (Q : Nat) : Sys → List Act → Option Sys
  | s, [] => some s
  | s, a :: rest =>
    match step Q s a with
    | none => none
    | some s' => runScript Q s' rest

/-- A fresh limiter. -/
def initSys : Sys := ⟨0, [], 0, [], []⟩

/-- Number of admitted calls inside the sliding 1-second window ending at
`e` (instants `x` with `x ≤ e` and `e - x < 1000`). -/
def windowCount (l : List Nat) (e : Nat) : Nat :=
  (l.filter (fun x => x ≤ e ∧ e - x < 1000)).length

/-- The interleaving refuting the sliding-window invariant for the public
limiter (`Q = 10`): ten uncontended admissions fill the window; two tasks
then enter while it is full, both suspend until the same oldest-entry
expiry holding stale local copies, and both are admitted on wake. -/
def raceScript : List Act :=
  [Act.enter 0, Act.enter 10, Act.enter 20, Act.enter 30, Act.enter 40,
   Act.enter 50, Act.enter 60, Act.enter 70, Act.enter 80, Act.enter 90,
   Act.enter 95, Act.enter 96, Act.wakeUp 0, Act.wakeUp 0]

/-! Scheduler: the `main` loop of src/main.py. -/

/-- Observable events of the polling loop: a run of `collect_data` with its
cycle index, start and end instants, or a 300-second sleep started at an
instant. -/
inductive SchedEv where
  | cycleRun (idx : Nat) (startT : Nat) (endT : Nat)
  | sleepRun (fromT : Nat) (dur : Nat)
deriving DecidableEq

/-- The `while True: await asyncio.sleep(300); await collector.collect_data()`
loop, producing `fuel` further cycles after the initial one; `d k` is the
wall-clock duration of cycle `k`, `k` the next cycle index, `t` the instant
the previous cycle ended. -/
def sched_loop (d : Nat → Nat) : Nat → Nat → Nat → List SchedEv
  | 0, _, _ => []
  | fuel + 1, k, t =>
    SchedEv.sleepRun t 300 ::
    SchedEv.cycleRun k (t + 300) (t + 300 + d k) ::
    sched_loop d fuel (k + 1) (t + 300 + d k)

/-- Model of `main` after startup: one immediate `collect_data` run at `t0`,
then the sleep-then-run loop. -/
def sched_main (d : Nat → Nat) (t0 : Nat) (fuel : Nat) : List SchedEv :=
  SchedEv.cycleRun 0 t0 (t0 + d 0) :: sched_loop d fuel 1 (t0 + d 0)

/-- Start instant of cycle `k` as the spec describes it: cycle 0 at
startup, each later cycle 300 seconds after the previous cycle's end. -/
def cycleStart (d : Nat → Nat) (t0 : Nat) : Nat → Nat
  | 0 => t0
  | k + 1 => (cycleStart d t0 k + d k) + 300

/-- End instant of cycle `k`. -/
def cycleEnd (d : Nat → Nat) (t0 : Nat) (k : Nat) : Nat :=
  cycleStart d t0 k + d k

/-- Instant the `j`-th cycle emitted by `sched_loop d fuel k t` starts its
preceding sleep: `t` plus the elapsed sleeps and cycle durations before it. -/
def loopEndT (d : Nat → Nat) : Nat → Nat → Nat → Nat
  | 0, _, t => t
  | j + 1, k, t => loopEndT d j (k + 1) (t + 300 + d k)

/-- Per-product behaviours differing only at `"BTC-USD"`: there the first
makes the candle fetch fail, the second returns an empty response. -/
def behFailBTC : String → ProcBehavior :=
  fun q => if q = "BTC-USD" then ⟨CandleResp.err, false⟩ else ⟨CandleResp.candles [], false⟩

/-- Companion to `behFailBTC` with a non-failing fetch at `"BTC-USD"`. -/
def behEmptyBTC : String → ProcBehavior :=
  fun q => if q = "BTC-USD" then ⟨CandleResp.candles [], false⟩ else ⟨CandleResp.candles [], false⟩

/-- A two-product catalog response used to instantiate cycle theorems. -/
def twoProductsResp : ProductsResp :=
  ProductsResp.products
    [[("product_id", "BTC-USD"), ("base_name", "BTC"), ("quote_name", "USD"), ("status", "online")],
     [("product_id", "ETH-USD"), ("base_name", "ETH"), ("quote_name", "USD"), ("status", "online")]]

/-! ## Theorems -/

/-- C1.  The sliding-window invariant fails on the code: with the public
quota `Q = 10`, the interleaving `raceScript` — ten admissions at
0,10,…,90 ms, then two tasks entering at 95 ms and 96 ms while the window
is full, both sleeping until the single oldest entry expires at 1000 ms
with stale local copies of `request_times`, both admitted on wake — puts
11 admitted calls inside the sliding 1-second window ending at 1000 ms,
and 11 exceeds the quota 10.  The write-back of the second waker also
discards the first waker's recorded timestamp. -/
theorem c1_sliding_window_race :
    (runScript 10 initSys raceScript).map (fun s => windowCount s.invocations 1000) =
      some 11 ∧ ¬ 11 ≤ 10 := by
  exact ⟨by decide, by decide⟩

/-- C2 counterexample.  On a throttling failure the permit is not released
before the backoff: the whole trace for one 429 followed by a success is
acquire–invoke–sleep(2000)–acquire–invoke–release–release, the first three
events contain no release (so the 2-second suspension and the retry happen
with the permit still held, and the retry acquires a second one), and the
retried call's result is returned. -/
theorem c2_permit_held_counterexample :
    (rateLimitedRequest 10 2 [CallOutcome.err "HTTP 429", CallOutcome.ok 7] ⟨0, []⟩).1 =
      [Ev.acquire, Ev.invoke, Ev.sleepEv 2000, Ev.acquire, Ev.invoke, Ev.release, Ev.release] ∧
    countEv Ev.release
      ((rateLimitedRequest 10 2 [CallOutcome.err "HTTP 429", CallOutcome.ok 7] ⟨0, []⟩).1.take 3) = 0 ∧
    (rateLimitedRequest 10 2 [CallOutcome.err "HTTP 429", CallOutcome.ok 7] ⟨0, []⟩).2.1 =
      some (Except.ok 7) := by
  exact ⟨by decide, by decide, by decide⟩

/-- C3 counterexample.  A raw response holding two candles with the same
interval start `"100"` makes `get_candles` return both, so the returned
sequence is not strictly ascending by interval start: two returned candles
share the interval start. -/
theorem c3_duplicate_start_counterexample :
    (get_candles (CandleResp.candles
      [[("start", "100"), ("high", "2"), ("low", "1"), ("open", "1"), ("close", "2"), ("volume", "5")],
       [("start", "100"), ("high", "3"), ("low", "1"), ("open", "1"), ("close", "3"), ("volume", "6")]])).map
        (fun c => c.start) = ["100", "100"] := by
  decide

/-- C4 counterexample.  Both records parse into `Candle`s (so none is
"dropped individually"), yet because the second one's `start` is not an
integer the sort key raises inside the surrounding `try` and the whole
fetch degrades to `[]` instead of returning the last candles by time. -/
theorem c4_bad_start_counterexample :
    (Candle.fromResponse
      [("start", "100"), ("high", "2"), ("low", "1"), ("open", "1"), ("close", "2"), ("volume", "5")]).isSome = true ∧
    (Candle.fromResponse
      [("start", "oops"), ("high", "2"), ("low", "1"), ("open", "1"), ("close", "2"), ("volume", "5")]).isSome = true ∧
    get_candles (CandleResp.candles
      [[("start", "100"), ("high", "2"), ("low", "1"), ("open", "1"), ("close", "2"), ("volume", "5")],
       [("start", "oops"), ("high", "2"), ("low", "1"), ("open", "1"), ("close", "2"), ("volume", "5")]]) = [] := by
  exact ⟨by decide, by decide, by decide⟩

/-- C6.  When the product list of a cycle is empty — whatever made it so:
a failed catalog fetch, a malformed response, or a genuinely empty
catalog — `collect_data` returns a normal, empty result, not an error. -/
theorem c6_empty_products_ok (iso : String) (resp : ProductsResp)
    (beh : String → ProcBehavior) (h : get_products resp = []) :
    collect_data iso resp beh = .ok [] := by
  unfold collect_data
  simp [h]

/-- C6 witness: a failed catalog fetch yields the empty, non-error cycle
result. -/
theorem c6_empty_products_ok_witness :
    collect_data "2024-01-01T00:00:00" ProductsResp.err behFailBTC = .ok [] :=
  c6_empty_products_ok "2024-01-01T00:00:00" ProductsResp.err behFailBTC rfl

/-- C8 counterexample.  A per-product outcome never carries a failure
reason: the outcome produced when the candle fetch fails is identical to
the outcome produced when the fetch succeeds with zero candles, so the
cycle result does not contain "failure with reason" entries. -/
theorem c8_no_failure_reason_counterexample :
    process_product "T" ⟨CandleResp.err, false⟩ ⟨"BTC-USD", "BTC", "USD", "online", none, none⟩ =
      process_product "T" ⟨CandleResp.candles [], false⟩ ⟨"BTC-USD", "BTC", "USD", "online", none, none⟩ ∧
    (process_product "T" ⟨CandleResp.err, false⟩ ⟨"BTC-USD", "BTC", "USD", "online", none, none⟩).1 =
      { product_id := "BTC-USD", candles := [], timestamp := "T" } := by
  exact ⟨by decide, by decide⟩

/-- C8 as amended: every cycle returns normally with exactly one outcome
per product submitted, in submission order — the outcome records the
product's id, its candle dicts and a timestamp (failures surface only as
empty candle lists, with no recorded reason) — and no entry is dropped. -/
theorem c8_one_outcome_per_product (iso : String) (resp : ProductsResp)
    (beh : String → ProcBehavior) :
    ∃ l, collect_data iso resp beh = .ok l ∧
      l.map (fun o => o.product_id) = (get_products resp).map (fun p => p.product_id) := by
  refine ⟨(get_products resp).map (fun p => (process_product iso (beh p.product_id) p).1), ?_, ?_⟩
  · unfold collect_data
    rcases h : get_products resp with _ | ⟨p, ps⟩ <;> simp [h]
  · simp [List.map_map]
    intro a _
    rfl

/-! Helper lemmas. -/

theorem countEv_append (e : Ev) (l₁ l₂ : List Ev) :
    countEv e (l₁ ++ l₂) = countEv e l₁ + countEv e l₂ := by
  simp [countEv, List.filter_append]

theorem countEv_cons (e a : Ev) (l : List Ev) :
    countEv e (a :: l) = (if a = e then 1 else 0) + countEv e l := by
  by_cases h : a = e <;> simp [countEv, List.filter_cons, h, Nat.add_comm]

theorem countEv_nil (e : Ev) : countEv e [] = 0 := rfl

theorem countEv_replicate (n : Nat) : countEv Ev.release (List.replicate n Ev.release) = n := by
  induction n with
  | zero => rfl
  | succ n ih =>
    simp [List.replicate_succ, countEv_cons, ih]
    omega

theorem lookup_isSome_of_mem {d : RawDict} {k : String}
    (h : k ∈ d.map Prod.fst) : (d.lookup k).isSome = true := by
  induction d with
  | nil => simp at h
  | cons kv rest ih =>
    by_cases hk : k = kv.1
    · simp [List.lookup, hk]
    · rcases kv with ⟨k', v⟩
      simp only [List.map, List.mem_cons] at h
      rcases h with h | h
      · exact absurd h hk
      · simpa [List.lookup, beq_eq_false_iff_ne.mpr hk] using ih h

theorem mem_of_lookup_isSome {d : RawDict} {k : String}
    (h : (d.lookup k).isSome = true) : k ∈ d.map Prod.fst := by
  induction d with
  | nil => simp [List.lookup] at h
  | cons kv rest ih =>
    rcases kv with ⟨k', v⟩
    by_cases hk : k = k'
    · simp [hk]
    · simp only [List.lookup, beq_eq_false_iff_ne.mpr hk] at h
      simp [ih h]

/-- C3 as amended: `get_candles` returns at most 3 candles and the returned
sequence is ascending (non-strictly) by interval start; two returned
candles may share an interval start. -/
theorem c3_at_most_three_ascending (resp : CandleResp) :
    (get_candles resp).length ≤ 3 ∧ (get_candles resp).Pairwise candLe := by
  cases resp with
  | err => simp [get_candles]
  | noCandles => simp [get_candles]
  | candles raws =>
    show (get_candles (CandleResp.candles raws)).length ≤ 3 ∧ _
    unfold get_candles
    by_cases h :
        (raws.filterMap Candle.fromResponse).all sortKeyOk = true
    · simp only [h, if_true, takeLast3]
      constructor
      · rw [List.length_drop]
        omega
      · exact ((List.sorted_insertionSort candLe
          (raws.filterMap Candle.fromResponse)).sublist (List.drop_sublist _ _))
    · simp [h]

/-- C10.  A dict-shaped raw candle record yields a `Candle` exactly when
its key list is a permutation of the six dataclass fields — any missing or
extra key yields `None` — and a rejected record is dropped from the parsed
candle sequence without failing the rest. -/
theorem c10_candle_keys_exact (d : RawDict) (rest : List RawDict) :
    ((Candle.fromResponse d).isSome = true ↔ (d.map Prod.fst).Perm candleKeys) ∧
    (Candle.fromResponse d = none →
      (d :: rest).filterMap Candle.fromResponse = rest.filterMap Candle.fromResponse) := by
  constructor
  · unfold Candle.fromResponse
    by_cases h : d.length = 6 ∧ ∀ k ∈ candleKeys, (d.lookup k).isSome
    · rw [if_pos h]
      simp only [Option.isSome_some, true_iff]
      obtain ⟨hlen, hall⟩ := h
      have hsub : candleKeys ⊆ d.map Prod.fst := fun k hk =>
        mem_of_lookup_isSome (hall k hk)
      have hnd : candleKeys.Nodup := by decide
      obtain ⟨l, hperm, hsl⟩ := hnd.subperm hsub
      have hll : l = d.map Prod.fst := by
        refine hsl.eq_of_length ?_
        rw [hperm.length_eq, List.length_map, hlen]
        rfl
      exact hll ▸ hperm
    · rw [if_neg h]
      simp only [Option.isSome_none, Bool.false_eq_true, false_iff]
      intro hperm
      refine h ⟨?_, ?_⟩
      · have := hperm.length_eq
        rw [List.length_map] at this
        simpa using this
      · intro k hk
        exact lookup_isSome_of_mem (hperm.mem_iff.mpr hk)
  · intro h
    simp [List.filterMap_cons, h]

/-- C10 witness: a record bearing exactly the six keys parses, and a
record with a missing key is dropped from the sequence while its
neighbour survives. -/
theorem c10_candle_keys_exact_witness :
    ((Candle.fromResponse
        [("start", "1"), ("high", "2"), ("low", "1"), ("open", "1"), ("close", "2"), ("volume", "5")]).isSome = true) ∧
    ([[("high", "2"), ("low", "1"), ("open", "1"), ("close", "2"), ("volume", "5")],
      [("start", "1"), ("high", "2"), ("low", "1"), ("open", "1"), ("close", "2"), ("volume", "5")]].filterMap
        Candle.fromResponse =
      [[("start", "1"), ("high", "2"), ("low", "1"), ("open", "1"), ("close", "2"), ("volume", "5")]].filterMap
        Candle.fromResponse) :=
  ⟨(c10_candle_keys_exact
      [("start", "1"), ("high", "2"), ("low", "1"), ("open", "1"), ("close", "2"), ("volume", "5")] []).1.mpr
      (by decide),
   (c10_candle_keys_exact
      [("high", "2"), ("low", "1"), ("open", "1"), ("close", "2"), ("volume", "5")]
      [[("start", "1"), ("high", "2"), ("low", "1"), ("open", "1"), ("close", "2"), ("volume", "5")]]).2
      (by decide)⟩

/-- C5.  `get_products` returns the empty list on a fetch failure or a
response without a `products` attribute; a product is returned exactly
when some raw record parses to it and its status is `"online"`; and a
record `Product.from_response` rejects is dropped individually, leaving
the rest of the fetch intact. -/
theorem c5_active_products (raws : List RawDict) (r : RawDict) (p : Product) :
    get_products ProductsResp.err = [] ∧
    get_products ProductsResp.noProducts = [] ∧
    (p ∈ get_products (ProductsResp.products raws) ↔
      p.status = "online" ∧ ∃ d ∈ raws, Product.fromResponse d = some p) ∧
    (Product.fromResponse r = none →
      get_products (ProductsResp.products (r :: raws)) =
        get_products (ProductsResp.products raws)) := by
  refine ⟨rfl, rfl, ?_, ?_⟩
  · show p ∈ (raws.filterMap Product.fromResponse).filter (fun p => p.status == "online") ↔ _
    rw [List.mem_filter, List.mem_filterMap]
    simp only [beq_iff_eq]
    constructor
    · rintro ⟨⟨d, hd, hp⟩, hs⟩
      exact ⟨by simpa using hs, d, hd, hp⟩
    · rintro ⟨hs, d, hd, hp⟩
      exact ⟨⟨d, hd, hp⟩, by simpa using hs⟩
  · intro h
    show (List.filterMap Product.fromResponse (r :: raws)).filter _ = _
    simp [List.filterMap_cons, h]
    rfl

/-- C5 witness: from a catalog with one online, one offline and one
malformed record, the online product is returned; and prepending the
malformed record leaves the fetch result unchanged. -/
theorem c5_active_products_witness :
    (⟨"BTC-USD", "BTC", "USD", "online", none, none⟩ : Product) ∈
      get_products (ProductsResp.products
        [[("product_id", "BTC-USD"), ("base_name", "BTC"), ("quote_name", "USD"), ("status", "online")],
         [("product_id", "X-USD"), ("base_name", "X"), ("quote_name", "USD"), ("status", "offline")]]) ∧
    get_products (ProductsResp.products
        ([("product_id", "Y-USD")] ::
          [[("product_id", "BTC-USD"), ("base_name", "BTC"), ("quote_name", "USD"), ("status", "online")]])) =
      get_products (ProductsResp.products
        [[("product_id", "BTC-USD"), ("base_name", "BTC"), ("quote_name", "USD"), ("status", "online")]]) :=
  ⟨(c5_active_products
      [[("product_id", "BTC-USD"), ("base_name", "BTC"), ("quote_name", "USD"), ("status", "online")],
       [("product_id", "X-USD"), ("base_name", "X"), ("quote_name", "USD"), ("status", "offline")]]
      [] ⟨"BTC-USD", "BTC", "USD", "online", none, none⟩).2.2.1.mpr
      ⟨rfl,
       [("product_id", "BTC-USD"), ("base_name", "BTC"), ("quote_name", "USD"), ("status", "online")],
       by decide, by decide⟩,
   (c5_active_products
      [[("product_id", "BTC-USD"), ("base_name", "BTC"), ("quote_name", "USD"), ("status", "online")]]
      [("product_id", "Y-USD")] ⟨"BTC-USD", "BTC", "USD", "online", none, none⟩).2.2.2
      (by decide)⟩

/-- C4 as amended: the collector requests the window
`[now - 15 minutes, now]` (integral epoch seconds) at `FIVE_MINUTE`
granularity; a failed fetch yields `[]`; when every parsed candle's
`start` is an integer that `datetime.fromtimestamp` accepts, the result
is a suffix of the parsed candles sorted ascending by interval start —
the last `min 3 n` of them — while if any parsed candle's `start` fails
to parse as an integer or falls outside `fromtimestamp`'s range, the
whole fetch degrades to `[]`; every returned candle comes verbatim from
a raw record of the response, whose string field values
`Candle.from_response` copies unchanged.  The start strings are assumed
ASCII, the fragment on which the embedded `int(...)` agrees with CPython
(which additionally accepts non-ASCII Unicode digits and whitespace). -/
theorem c4_window_and_last_three (now : Nat) (pid : String)
    (raws : List RawDict) (r : RawDict) (c : Candle) (h900 : 900 ≤ now)
    (hascii : ∀ x ∈ raws.filterMap Candle.fromResponse, asciiStr x.start = true) :
    (collector_request now pid).start_timestamp + 900 = now ∧
    (collector_request now pid).end_timestamp = now ∧
    (collector_request now pid).granularity = "FIVE_MINUTE" ∧
    (collector_request now pid).product_id = pid ∧
    get_candles CandleResp.err = [] ∧
    ((raws.filterMap Candle.fromResponse).all sortKeyOk = true →
      get_candles (CandleResp.candles raws) <:+
        List.insertionSort candLe (raws.filterMap Candle.fromResponse) ∧
      (get_candles (CandleResp.candles raws)).length =
        min 3 (raws.filterMap Candle.fromResponse).length) ∧
    ((raws.filterMap Candle.fromResponse).all sortKeyOk = false →
      get_candles (CandleResp.candles raws) = []) ∧
    (c ∈ get_candles (CandleResp.candles raws) →
      ∃ d ∈ raws, Candle.fromResponse d = some c) ∧
    (Candle.fromResponse r = some c →
      r.lookup "start" = some c.start ∧ r.lookup "open" = some c.«open» ∧
      r.lookup "high" = some c.high ∧ r.lookup "low" = some c.low ∧
      r.lookup "close" = some c.close ∧ r.lookup "volume" = some c.volume) := by
  refine ⟨by simp [collector_request]; omega, rfl, rfl, rfl, rfl, ?_, ?_, ?_, ?_⟩
  · intro h
    have he : get_candles (CandleResp.candles raws) =
        takeLast3 (List.insertionSort candLe (raws.filterMap Candle.fromResponse)) := by
      simp [get_candles, h]
    rw [he]
    refine ⟨List.drop_suffix _ _, ?_⟩
    rw [takeLast3, List.length_drop, List.length_insertionSort]
    omega
  · intro h
    simp [get_candles, h]
  · intro hc
    by_cases h :
        (raws.filterMap Candle.fromResponse).all sortKeyOk = true
    · have he : get_candles (CandleResp.candles raws) =
          takeLast3 (List.insertionSort candLe (raws.filterMap Candle.fromResponse)) := by
        simp [get_candles, h]
      rw [he, takeLast3] at hc
      have h1 : c ∈ List.insertionSort candLe (raws.filterMap Candle.fromResponse) :=
        (List.drop_sublist _ _).mem hc
      have h2 : c ∈ raws.filterMap Candle.fromResponse :=
        (List.mem_insertionSort candLe).mp h1
      exact List.mem_filterMap.mp h2
    · have he : get_candles (CandleResp.candles raws) = [] := by
        simp [get_candles, h]
      rw [he] at hc
      simp at hc
  · intro h
    unfold Candle.fromResponse at h
    by_cases hcond : r.length = 6 ∧ ∀ k ∈ candleKeys, (r.lookup k).isSome
    · rw [if_pos hcond] at h
      obtain ⟨hlen, hall⟩ := hcond
      injection h with h
      subst h
      refine ⟨?_, ?_, ?_, ?_, ?_, ?_⟩ <;>
        first
        | (cases hl : r.lookup "start" with
            | none => exact absurd (hall "start" (by decide)) (by simp [hl])
            | some v => simp [hl])
        | (cases hl : r.lookup "open" with
            | none => exact absurd (hall "open" (by decide)) (by simp [hl])
            | some v => simp [hl])
        | (cases hl : r.lookup "high" with
            | none => exact absurd (hall "high" (by decide)) (by simp [hl])
            | some v => simp [hl])
        | (cases hl : r.lookup "low" with
            | none => exact absurd (hall "low" (by decide)) (by simp [hl])
            | some v => simp [hl])
        | (cases hl : r.lookup "close" with
            | none => exact absurd (hall "close" (by decide)) (by simp [hl])
            | some v => simp [hl])
        | (cases hl : r.lookup "volume" with
            | none => exact absurd (hall "volume" (by decide)) (by simp [hl])
            | some v => simp [hl])
    · rw [if_neg hcond] at h
      cases h

/-- C4 witness: at `now = 1000` the request window is `[100, 1000]` at
`FIVE_MINUTE` granularity, and a response with one well-formed record
with `start = "100"` passes through verbatim. -/
theorem c4_window_and_last_three_witness :
    (collector_request 1000 "BTC-USD").start_timestamp + 900 = 1000 ∧
    (collector_request 1000 "BTC-USD").end_timestamp = 1000 ∧
    (collector_request 1000 "BTC-USD").granularity = "FIVE_MINUTE" ∧
    (collector_request 1000 "BTC-USD").product_id = "BTC-USD" ∧
    get_candles CandleResp.err = [] ∧
    (([[("start", "100"), ("high", "2"), ("low", "1"), ("open", "1"), ("close", "2"), ("volume", "5")]].filterMap
        Candle.fromResponse).all sortKeyOk = true →
      get_candles (CandleResp.candles
          [[("start", "100"), ("high", "2"), ("low", "1"), ("open", "1"), ("close", "2"), ("volume", "5")]]) <:+
        List.insertionSort candLe
          ([[("start", "100"), ("high", "2"), ("low", "1"), ("open", "1"), ("close", "2"), ("volume", "5")]].filterMap
            Candle.fromResponse) ∧
      (get_candles (CandleResp.candles
          [[("start", "100"), ("high", "2"), ("low", "1"), ("open", "1"), ("close", "2"), ("volume", "5")]])).length =
        min 3 ([[("start", "100"), ("high", "2"), ("low", "1"), ("open", "1"), ("close", "2"), ("volume", "5")]].filterMap
          Candle.fromResponse).length) ∧
    (([[("start", "100"), ("high", "2"), ("low", "1"), ("open", "1"), ("close", "2"), ("volume", "5")]].filterMap
        Candle.fromResponse).all sortKeyOk = false →
      get_candles (CandleResp.candles
        [[("start", "100"), ("high", "2"), ("low", "1"), ("open", "1"), ("close", "2"), ("volume", "5")]]) = []) ∧
    (⟨"100", "2", "1", "1", "2", "5"⟩ ∈ get_candles (CandleResp.candles
        [[("start", "100"), ("high", "2"), ("low", "1"), ("open", "1"), ("close", "2"), ("volume", "5")]]) →
      ∃ d ∈ [[("start", "100"), ("high", "2"), ("low", "1"), ("open", "1"), ("close", "2"), ("volume", "5")]],
        Candle.fromResponse d = some ⟨"100", "2", "1", "1", "2", "5"⟩) ∧
    (Candle.fromResponse
        [("start", "100"), ("high", "2"), ("low", "1"), ("open", "1"), ("close", "2"), ("volume", "5")] =
        some ⟨"100", "2", "1", "1", "2", "5"⟩ →
      List.lookup "start"
          [("start", "100"), ("high", "2"), ("low", "1"), ("open", "1"), ("close", "2"), ("volume", "5")] = some "100" ∧
      List.lookup "open"
          [("start", "100"), ("high", "2"), ("low", "1"), ("open", "1"), ("close", "2"), ("volume", "5")] = some "1" ∧
      List.lookup "high"
          [("start", "100"), ("high", "2"), ("low", "1"), ("open", "1"), ("close", "2"), ("volume", "5")] = some "2" ∧
      List.lookup "low"
          [("start", "100"), ("high", "2"), ("low", "1"), ("open", "1"), ("close", "2"), ("volume", "5")] = some "1" ∧
      List.lookup "close"
          [("start", "100"), ("high", "2"), ("low", "1"), ("open", "1"), ("close", "2"), ("volume", "5")] = some "2" ∧
      List.lookup "volume"
          [("start", "100"), ("high", "2"), ("low", "1"), ("open", "1"), ("close", "2"), ("volume", "5")] = some "5") :=
  c4_window_and_last_three 1000 "BTC-USD"
    [[("start", "100"), ("high", "2"), ("low", "1"), ("open", "1"), ("close", "2"), ("volume", "5")]]
    [("start", "100"), ("high", "2"), ("low", "1"), ("open", "1"), ("close", "2"), ("volume", "5")]
    ⟨"100", "2", "1", "1", "2", "5"⟩ (by decide) (by decide)

/-- One normal cycle result: `collect_data` always returns `.ok` of one
`process_product` outcome per product, in submission order. -/
theorem collect_data_eq_map (iso : String) (resp : ProductsResp)
    (beh : String → ProcBehavior) :
    collect_data iso resp beh =
      .ok ((get_products resp).map
        (fun p => (process_product iso (beh p.product_id) p).1)) := by
  unfold collect_data
  rcases h : get_products resp with _ | ⟨p, ps⟩ <;> simp [h]

/-- C7.  Per-product isolation: every cycle returns normally with one
outcome per product in order; changing one product's environment (its
fetch outcome or whether its sink write raises) leaves every other
product's outcome unchanged; and a product whose fetch fails still
yields its own (empty-candle) outcome rather than failing the cycle. -/
theorem c7_per_product_isolation (iso : String) (resp : ProductsResp)
    (beh beh' : String → ProcBehavior) (pid : String)
    (h : ∀ q, q ≠ pid → beh q = beh' q) :
    ∃ l l', collect_data iso resp beh = .ok l ∧ collect_data iso resp beh' = .ok l' ∧
      l.map (fun o => o.product_id) = (get_products resp).map (fun p => p.product_id) ∧
      l'.length = l.length ∧
      (∀ i q, (get_products resp).get? i = some q → q.product_id ≠ pid →
        l.get? i = l'.get? i) ∧
      (∀ i q, (get_products resp).get? i = some q →
        (beh q.product_id).fetch = CandleResp.err →
        l.get? i = some { product_id := q.product_id, candles := [], timestamp := iso }) := by
  refine ⟨(get_products resp).map (fun p => (process_product iso (beh p.product_id) p).1),
    (get_products resp).map (fun p => (process_product iso (beh' p.product_id) p).1),
    collect_data_eq_map iso resp beh, collect_data_eq_map iso resp beh', ?_, ?_, ?_, ?_⟩
  · rw [List.map_map]
    exact List.map_congr_left (fun a _ => rfl)
  · rw [List.length_map, List.length_map]
  · intro i q hq hne
    rw [List.get?_map, List.get?_map, hq]
    simp only [Option.map_some']
    rw [h q.product_id hne]
  · intro i q hq hfetch
    rw [List.get?_map, hq]
    simp only [Option.map_some']
    unfold process_product
    simp [collector_get_candles, get_candles, hfetch]

/-- C7 witness: with two online products where `BTC-USD`'s fetch fails in
one environment and returns no candles in the other, both cycles return
normally, the outcomes are one per product in order, `ETH-USD`'s outcome
is unaffected, and `BTC-USD` still gets its own entry. -/
theorem c7_per_product_isolation_witness :
    ∃ l l', collect_data "T" twoProductsResp behFailBTC = .ok l ∧
      collect_data "T" twoProductsResp behEmptyBTC = .ok l' ∧
      l.map (fun o => o.product_id) =
        (get_products twoProductsResp).map (fun p => p.product_id) ∧
      l'.length = l.length ∧
      (∀ i q, (get_products twoProductsResp).get? i = some q → q.product_id ≠ "BTC-USD" →
        l.get? i = l'.get? i) ∧
      (∀ i q, (get_products twoProductsResp).get? i = some q →
        (behFailBTC q.product_id).fetch = CandleResp.err →
        l.get? i = some { product_id := q.product_id, candles := [], timestamp := "T" }) :=
  c7_per_product_isolation "T" twoProductsResp behFailBTC behEmptyBTC "BTC-USD"
    (fun q hq => by simp [behFailBTC, behEmptyBTC, hq])

theorem rateWait_le (maxRps : Nat) (st : ExecSt) : rateWait maxRps st ≤ 1000 := by
  unfold rateWait
  split
  · exact Nat.sub_le _ _
  · exact Nat.zero_le _

theorem countEv_waitEvsOf_sleep2000 (maxRps : Nat) (st : ExecSt) :
    countEv (Ev.sleepEv 2000) (waitEvsOf maxRps st) = 0 := by
  unfold waitEvsOf
  split
  · have h := rateWait_le maxRps st
    simp [countEv_cons, countEv_nil]
    omega
  · rfl

theorem countEv_waitEvsOf_invoke (maxRps : Nat) (st : ExecSt) :
    countEv Ev.invoke (waitEvsOf maxRps st) = 0 := by
  unfold waitEvsOf
  split <;> simp [countEv_cons, countEv_nil]

theorem countEv_waitEvsOf_acquire (maxRps : Nat) (st : ExecSt) :
    countEv Ev.acquire (waitEvsOf maxRps st) = 0 := by
  unfold waitEvsOf
  split <;> simp [countEv_cons, countEv_nil]

/-- C2 as amended: for any run of throttling failures followed by a
terminal outcome, the executor sleeps exactly 2 seconds once per
throttling failure and re-invokes the identical call each time with no
retry-count cap — but it does so while still holding its rate-limiter
permit: one permit is acquired per attempt and every release happens only
at the very end, after the whole retry chain has completed (the trace ends
in all `attempts` releases).  The final result is the terminal outcome
unchanged: the retried call's value on success, the non-throttling error
propagated as-is otherwise. -/
theorem c2_retry_holds_permit (ms : List String) (st : ExecSt) (fin : CallOutcome)
    (hth : ∀ m ∈ ms, isThrottleMsg m = true)
    (hfin : isTerminalOutcome fin = true) :
    (rateLimitedRequest 10 (ms.length + 1) (ms.map CallOutcome.err ++ [fin]) st).2.1 =
      some (terminal fin) ∧
    countEv (Ev.sleepEv 2000)
      (rateLimitedRequest 10 (ms.length + 1) (ms.map CallOutcome.err ++ [fin]) st).1 = ms.length ∧
    countEv Ev.invoke
      (rateLimitedRequest 10 (ms.length + 1) (ms.map CallOutcome.err ++ [fin]) st).1 = ms.length + 1 ∧
    countEv Ev.acquire
      (rateLimitedRequest 10 (ms.length + 1) (ms.map CallOutcome.err ++ [fin]) st).1 = ms.length + 1 ∧
    List.replicate (ms.length + 1) Ev.release <:+
      (rateLimitedRequest 10 (ms.length + 1) (ms.map CallOutcome.err ++ [fin]) st).1 := by
  induction ms generalizing st with
  | nil =>
    cases fin with
    | ok v =>
      refine ⟨rfl, ?_, ?_, ?_, ?_⟩
      · show countEv _ (Ev.acquire :: waitEvsOf 10 st ++ [Ev.invoke, Ev.release]) = 0
        simp [countEv_cons, countEv_append, countEv_waitEvsOf_sleep2000, countEv_nil]
      · show countEv _ (Ev.acquire :: waitEvsOf 10 st ++ [Ev.invoke, Ev.release]) = 1
        simp [countEv_cons, countEv_append, countEv_waitEvsOf_invoke, countEv_nil]
      · show countEv _ (Ev.acquire :: waitEvsOf 10 st ++ [Ev.invoke, Ev.release]) = 1
        simp [countEv_cons, countEv_append, countEv_waitEvsOf_acquire, countEv_nil]
      · show List.replicate 1 Ev.release <:+
          Ev.acquire :: waitEvsOf 10 st ++ [Ev.invoke, Ev.release]
        exact ⟨Ev.acquire :: waitEvsOf 10 st ++ [Ev.invoke], by simp⟩
    | err m =>
      have hm : isThrottleMsg m = false := by
        simpa [isTerminalOutcome] using hfin
      refine ⟨?_, ?_, ?_, ?_, ?_⟩ <;>
        simp only [List.map_nil, List.nil_append, List.length_nil,
          rateLimitedRequest, hm, Bool.false_eq_true, if_false]
      · rfl
      · simp [countEv_cons, countEv_append, countEv_waitEvsOf_sleep2000, countEv_nil]
      · simp [countEv_cons, countEv_append, countEv_waitEvsOf_invoke, countEv_nil]
      · simp [countEv_cons, countEv_append, countEv_waitEvsOf_acquire, countEv_nil]
      · show List.replicate 1 Ev.release <:+
          Ev.acquire :: waitEvsOf 10 st ++ [Ev.invoke, Ev.release]
        exact ⟨Ev.acquire :: waitEvsOf 10 st ++ [Ev.invoke], by simp⟩
  | cons m ms ih =>
    have hm : isThrottleMsg m = true := hth m (List.mem_cons_self m ms)
    have hth' : ∀ x ∈ ms, isThrottleMsg x = true :=
      fun x hx => hth x (List.mem_cons_of_mem m hx)
    have hrec := ih { now := afterWait 10 st + 2000, request_times := st.request_times } hth'
    obtain ⟨h1, h2, h3, h4, h5⟩ := hrec
    have hunf : rateLimitedRequest 10 ((m :: ms).length + 1)
        ((m :: ms).map CallOutcome.err ++ [fin]) st =
        (Ev.acquire :: waitEvsOf 10 st ++ [Ev.invoke, Ev.sleepEv 2000] ++
           (rateLimitedRequest 10 (ms.length + 1) (ms.map CallOutcome.err ++ [fin])
             { now := afterWait 10 st + 2000, request_times := st.request_times }).1 ++
           [Ev.release],
         (rateLimitedRequest 10 (ms.length + 1) (ms.map CallOutcome.err ++ [fin])
           { now := afterWait 10 st + 2000, request_times := st.request_times }).2.1,
         (rateLimitedRequest 10 (ms.length + 1) (ms.map CallOutcome.err ++ [fin])
           { now := afterWait 10 st + 2000, request_times := st.request_times }).2.2) := by
      show rateLimitedRequest 10 (ms.length + 1 + 1)
        (CallOutcome.err m :: (ms.map CallOutcome.err ++ [fin])) st = _
      rw [rateLimitedRequest]
      simp only [hm, if_true]
    refine ⟨?_, ?_, ?_, ?_, ?_⟩
    · rw [hunf]
      exact h1
    · rw [hunf]
      simp only [List.length_cons]
      show countEv _ (Ev.acquire :: (waitEvsOf 10 st ++ [Ev.invoke, Ev.sleepEv 2000] ++ _ ++ [Ev.release])) = _
      rw [countEv_cons, countEv_append, countEv_append, countEv_append,
        countEv_waitEvsOf_sleep2000, h2]
      simp [countEv_cons, countEv_nil]
      omega
    · rw [hunf]
      simp only [List.length_cons]
      show countEv _ (Ev.acquire :: (waitEvsOf 10 st ++ [Ev.invoke, Ev.sleepEv 2000] ++ _ ++ [Ev.release])) = _
      rw [countEv_cons, countEv_append, countEv_append, countEv_append,
        countEv_waitEvsOf_invoke, h3]
      simp [countEv_cons, countEv_nil]
      omega
    · rw [hunf]
      simp only [List.length_cons]
      show countEv _ (Ev.acquire :: (waitEvsOf 10 st ++ [Ev.invoke, Ev.sleepEv 2000] ++ _ ++ [Ev.release])) = _
      rw [countEv_cons, countEv_append, countEv_append, countEv_append,
        countEv_waitEvsOf_acquire, h4]
      simp [countEv_cons, countEv_nil]
      omega
    · rw [hunf]
      obtain ⟨t, ht⟩ := h5
      refine ⟨Ev.acquire :: waitEvsOf 10 st ++ [Ev.invoke, Ev.sleepEv 2000] ++ t, ?_⟩
      simp only [List.length_cons]
      rw [List.replicate_succ' (ms.length + 1), ← ht]
      simp [List.append_assoc]

/-- C2 witness: one 429 failure followed by a success — one 2-second
sleep, two invocations and acquisitions, the two releases only at the very
end of the trace, and the retried call's value returned. -/
theorem c2_retry_holds_permit_witness :
    (rateLimitedRequest 10 2 [CallOutcome.err "429", CallOutcome.ok 5] ⟨0, []⟩).2.1 =
      some (terminal (CallOutcome.ok 5)) ∧
    countEv (Ev.sleepEv 2000)
      (rateLimitedRequest 10 2 [CallOutcome.err "429", CallOutcome.ok 5] ⟨0, []⟩).1 = 1 ∧
    countEv Ev.invoke
      (rateLimitedRequest 10 2 [CallOutcome.err "429", CallOutcome.ok 5] ⟨0, []⟩).1 = 2 ∧
    countEv Ev.acquire
      (rateLimitedRequest 10 2 [CallOutcome.err "429", CallOutcome.ok 5] ⟨0, []⟩).1 = 2 ∧
    List.replicate 2 Ev.release <:+
      (rateLimitedRequest 10 2 [CallOutcome.err "429", CallOutcome.ok 5] ⟨0, []⟩).1 :=
  c2_retry_holds_permit ["429"] ⟨0, []⟩ (CallOutcome.ok 5) (by decide) (by decide)

/-! Scheduler lemmas. -/

theorem loopEndT_succ_right (d : Nat → Nat) :
    ∀ (j k t : Nat), loopEndT d (j + 1) k t = loopEndT d j k t + 300 + d (k + j) := by
  intro j
  induction j with
  | zero => intro k t; simp [loopEndT]
  | succ j ih =>
    intro k t
    show loopEndT d (j + 1) (k + 1) (t + 300 + d k) = loopEndT d (j + 1) k t + 300 + d (k + (j + 1))
    rw [ih (k + 1) (t + 300 + d k)]
    show loopEndT d j (k + 1) (t + 300 + d k) + 300 + d (k + 1 + j) = _
    rw [show loopEndT d j (k + 1) (t + 300 + d k) = loopEndT d (j + 1) k t from rfl,
      show k + 1 + j = k + (j + 1) by omega]

theorem sched_loop_get (d : Nat → Nat) :
    ∀ (j fuel k t : Nat), j < fuel →
      (sched_loop d fuel k t).get? (2 * j) =
        some (SchedEv.sleepRun (loopEndT d j k t) 300) ∧
      (sched_loop d fuel k t).get? (2 * j + 1) =
        some (SchedEv.cycleRun (k + j) (loopEndT d j k t + 300)
          (loopEndT d j k t + 300 + d (k + j))) := by
  intro j
  induction j with
  | zero =>
    intro fuel k t hj
    match fuel, hj with
    | f + 1, _ => exact ⟨rfl, rfl⟩
  | succ j ih =>
    intro fuel k t hj
    match fuel, hj with
    | f + 1, hj =>
      have hj' : j < f := by omega
      have h := ih f (k + 1) (t + 300 + d k) hj'
      constructor
      · show (sched_loop d (f + 1) k t).get? (2 * (j + 1)) = _
        rw [show 2 * (j + 1) = 2 * j + 1 + 1 by omega]
        show (sched_loop d f (k + 1) (t + 300 + d k)).get? (2 * j) = _
        rw [h.1]
        rfl
      · show (sched_loop d (f + 1) k t).get? (2 * (j + 1) + 1) = _
        rw [show 2 * (j + 1) + 1 = 2 * j + 1 + 1 + 1 by omega]
        show (sched_loop d f (k + 1) (t + 300 + d k)).get? (2 * j + 1) = _
        rw [h.2]
        rw [show (k + 1) + j = k + (j + 1) by omega]
        rfl

theorem loopEndT_eq_cycleEnd (d : Nat → Nat) (t0 : Nat) :
    ∀ j, loopEndT d j 1 (t0 + d 0) = cycleEnd d t0 j := by
  intro j
  induction j with
  | zero => rfl
  | succ j ih =>
    rw [loopEndT_succ_right, ih]
    show cycleEnd d t0 j + 300 + d (1 + j) = cycleStart d t0 (j + 1) + d (j + 1)
    rw [show (1 : Nat) + j = j + 1 by omega]
    show cycleEnd d t0 j + 300 + d (j + 1) = (cycleStart d t0 j + d j + 300) + d (j + 1)
    rw [cycleEnd]

/-- C9.  The polling loop runs cycle 0 immediately at startup (the first
trace event, with no preceding sleep); after each cycle `k` it starts a
fixed 300-second sleep exactly at that cycle's end, and cycle `k + 1`
starts exactly when that sleep ends — 300 seconds after cycle `k`'s
`collect_data` call returned — so cycle `k + 1` never begins before cycle
`k` has ended and cycles never overlap. -/
theorem c9_fixed_cadence_no_overlap (d : Nat → Nat) (t0 fuel k : Nat) (h : k < fuel) :
    (sched_main d t0 fuel).get? 0 = some (SchedEv.cycleRun 0 t0 (cycleEnd d t0 0)) ∧
    (sched_main d t0 fuel).get? (2 * k) =
      some (SchedEv.cycleRun k (cycleStart d t0 k) (cycleEnd d t0 k)) ∧
    (sched_main d t0 fuel).get? (2 * k + 1) =
      some (SchedEv.sleepRun (cycleEnd d t0 k) 300) ∧
    (sched_main d t0 fuel).get? (2 * k + 2) =
      some (SchedEv.cycleRun (k + 1) (cycleStart d t0 (k + 1)) (cycleEnd d t0 (k + 1))) ∧
    cycleStart d t0 (k + 1) = cycleEnd d t0 k + 300 ∧
    cycleEnd d t0 k ≤ cycleStart d t0 (k + 1) ∧
    cycleStart d t0 0 = t0 := by
  have hstart : ∀ j, cycleStart d t0 (j + 1) = cycleEnd d t0 j + 300 := fun j => rfl
  have hsleep : ∀ j, j < fuel →
      (sched_main d t0 fuel).get? (2 * j + 1) =
        some (SchedEv.sleepRun (cycleEnd d t0 j) 300) := by
    intro j hj
    show (sched_loop d fuel 1 (t0 + d 0)).get? (2 * j) = _
    rw [(sched_loop_get d j fuel 1 (t0 + d 0) hj).1, loopEndT_eq_cycleEnd]
  have hcycle : ∀ j, j < fuel →
      (sched_main d t0 fuel).get? (2 * j + 2) =
        some (SchedEv.cycleRun (j + 1) (cycleStart d t0 (j + 1)) (cycleEnd d t0 (j + 1))) := by
    intro j hj
    show (sched_loop d fuel 1 (t0 + d 0)).get? (2 * j + 1) = _
    rw [(sched_loop_get d j fuel 1 (t0 + d 0) hj).2, loopEndT_eq_cycleEnd]
    rw [show (1 : Nat) + j = j + 1 by omega]
    rw [hstart j]
    rfl
  refine ⟨rfl, ?_, hsleep k h, hcycle k h, hstart k, by rw [hstart k]; omega, rfl⟩
  cases k with
  | zero => rfl
  | succ j =>
    rw [show 2 * (j + 1) = 2 * j + 2 by omega]
    exact hcycle j (by omega)

/-- C9 witness: with 7-second cycles starting at `t0 = 100`, cycle 1 runs
over `[407, 414]`, the sleep after it starts at 414, and cycle 2 starts at
714 = 414 + 300. -/
theorem c9_fixed_cadence_no_overlap_witness :
    (sched_main (fun _ => 7) 100 2).get? 0 = some (SchedEv.cycleRun 0 100 (cycleEnd (fun _ => 7) 100 0)) ∧
    (sched_main (fun _ => 7) 100 2).get? (2 * 1) =
      some (SchedEv.cycleRun 1 (cycleStart (fun _ => 7) 100 1) (cycleEnd (fun _ => 7) 100 1)) ∧
    (sched_main (fun _ => 7) 100 2).get? (2 * 1 + 1) =
      some (SchedEv.sleepRun (cycleEnd (fun _ => 7) 100 1) 300) ∧
    (sched_main (fun _ => 7) 100 2).get? (2 * 1 + 2) =
      some (SchedEv.cycleRun (1 + 1) (cycleStart (fun _ => 7) 100 (1 + 1)) (cycleEnd (fun _ => 7) 100 (1 + 1))) ∧
    cycleStart (fun _ => 7) 100 (1 + 1) = cycleEnd (fun _ => 7) 100 1 + 300 ∧
    cycleEnd (fun _ => 7) 100 1 ≤ cycleStart (fun _ => 7) 100 (1 + 1) ∧
    cycleStart (fun _ => 7) 100 0 = 100 :=
  c9_fixed_cadence_no_overlap (fun _ => 7) 100 2 1 (by decide)

end Coinbase
